import Mathlib

/-!
Verification of the key/value storage engine and cursor pagination of the
blog-post CRUD service (Go sources: `internal/infrastructure` MemoryStore,
`internal/application` pagination and PostService).

Modelling conventions for the shallow embedding:

* JSON documents (`json.Marshal` output) are modelled by the tree type `Json`;
  stored payloads are such trees, which is faithful because `MemoryStore.Set`
  only ever stores `json.Marshal` output (always well-formed JSON).
* Go dynamic values (`any`/`interface\x7b\x7d`) are modelled by `GoAny`, which
  records the dynamic type inhabiting the interface.  `json.Unmarshal` into a
  `*any` target yields the generic decoded form (maps/slices/primitives),
  modelled by the constructor `GoAny.jsonVal`; a live `domain.Post` value is
  `GoAny.postVal`.  A Go type assertion `value.(domain.Post)` is the case
  analysis `asPost`.
* `json.Marshal` is modelled by `marshal`, which fails (returns `none`) on
  unserializable dynamic types such as channels (`GoAny.chanVal`).
* Go `string`s in cursor position are modelled by `CursorStr`: base64url over
  JSON partitions strings into the empty string, well-formed encodings of
  exactly one `Cursor` record (base64url plus JSON round-trips losslessly on
  `\x7bid, limit\x7d`), and malformed strings; the three constructors
  `empty`, `enc`, `malformed` name those classes.
* The store map `map[string][]byte` is modelled as an association list with
  Go map update semantics (`setData` replaces in place, `eraseData` removes
  the entry); Go map iteration order is unspecified, the list order is one
  admissible iteration order.
* `fmt.Errorf` errors are modelled by dedicated error constructors; the
  sentinel `domain.ErrKeyNotFound` is the distinguished `StoreErr.keyNotFound`.
* Go `int` is modelled by `Int`; `time.Time` instants by their `Int`
  nanosecond value, with `time.After` as strict `>`.
-/

/-- JSON document trees, the output shape of `json.Marshal` /
generic `json.Unmarshal`. -/
inductive Json where
  | null
  | bool (b : Bool)
  | num (n : Int)
  | str (s : String)
  | arr (elems : List Json)
  | obj (fields : List (String × Json))

/-- Post entity (`internal/domain` `Post`, part_001 lines 9-15).  The
`time.Time` fields are modelled by their nanosecond instants. -/
structure Post where
  id : String
  title : String
  content : String
  createdAt : Int
  updatedAt : Int
  deriving DecidableEq

/-- Pagination cursor record (`Cursor`, part_003 lines 33-36). -/
structure Cursor where
  id : String
  limit : Int
  deriving DecidableEq

/-- Go strings appearing in cursor position, partitioned by how
`base64.URLEncoding` plus `json.Unmarshal` treats them: the empty string, a
well-formed encoding of exactly one `Cursor` (the encoding of part_003 lines
76-87 is injective and `DecodeCursor` is its inverse), or a malformed token. -/
inductive CursorStr where
  | empty
  | enc (c : Cursor)
  | malformed (tag : Nat)
  deriving DecidableEq

/-- Pagination parameters (`PaginationParams`, part_003 lines 13-16). -/
structure PaginationParams where
  cursor : CursorStr
  limit : Int
  deriving DecidableEq

/-- Paginated list of posts (`domain.PostList`, part_001 lines 30-33). -/
structure PostList where
  posts : List Post
  nextCursor : CursorStr
  deriving DecidableEq

/-- Errors produced by `MemoryStore` (part_006 lines 200-325):
`keyNotFound` is the sentinel `domain.ErrKeyNotFound`; the others model the
distinct generic `fmt.Errorf` errors of the source. -/
inductive StoreErr where
  | keyNotFound
  | emptyKey
  | marshalFail
  | unmarshalFail
  deriving DecidableEq

/-- Application-level errors of `ListPosts` and the cursor protocol
(`domain` errors.go): `validationError` carries the field plus the wrapped
cause (the source stores `err.Error()` as the message string). -/
inductive AppError where
  | validationError (field : String) (cause : AppError)
  | limitRangeError
  | paginationError (c : CursorStr)
  | storageError (e : StoreErr)

/-- Go dynamic (`any`) values that flow through the store in this program:
the generic decoded form produced by `json.Unmarshal` into `*any`, a live
`domain.Post`, a Go string, and a channel (unserializable). -/
inductive GoAny where
  | jsonVal (j : Json)
  | postVal (p : Post)
  | strVal (s : String)
  | chanVal

/-- RFC3339 rendering of a `time.Time` instant, abstracted to an injective
textual encoding of the instant. -/
def timeText (t : Int) : String := toString t

/-- JSON form of a `domain.Post` under its struct tags (part_001 lines 9-15). -/
def postJson (p : Post) : Json :=
  .obj [("id", .str p.id), ("title", .str p.title), ("content", .str p.content),
        ("createdAt", .str (timeText p.createdAt)),
        ("updatedAt", .str (timeText p.updatedAt))]

/-- Model of `json.Marshal` on the dynamic values of this program; channels
make it fail (part_006 lines 209-212 propagate that failure). -/
def marshal : GoAny → Option Json
  | .jsonVal j => some j
  | .postVal p => some (postJson p)
  | .strVal s => some (.str s)
  | .chanVal => none

/-- Model of `json.Unmarshal` of a stored payload into a `*any` target
(part_006 lines 236-240, 277-279): decoding well-formed JSON into `any`
always succeeds and yields the generic decoded form. -/
def goUnmarshalAny (j : Json) : GoAny := .jsonVal j

/-- Model of the Go type assertion `value.(domain.Post)`
(post_service.go line 133). -/
def asPost : GoAny → Option Post
  | .postVal p => some p
  | _ => none

/-- Round-trip image of a value under the codec: `marshal` then generic
unmarshal, the "structural equality" sense of the spec. -/
def roundTripImage (v : GoAny) : Option GoAny := (marshal v).map goUnmarshalAny

/-- In-memory store state: the `map[string][]byte` of `MemoryStore`
(part_006 lines 185-189) as an association list. -/
structure Store where
  data : List (String × Json)

/-- Map read `s.data[key]` (first match; reachable states have unique keys). -/
def lookupData : List (String × Json) → String → Option Json
  | [], _ => none
  | (k, v) :: rest, key => if k = key then some v else lookupData rest key

/-- Map write `s.data[key] = data`: replace in place or append. -/
def setData : List (String × Json) → String → Json → List (String × Json)
  | [], key, v => [(key, v)]
  | (k, w) :: rest, key, v =>
      if k = key then (key, v) :: rest else (k, w) :: setData rest key v

/-- Map removal `delete(s.data, key)`; on map-representable states (unique
keys) removing every match equals removing the one entry. -/
def eraseData (d : List (String × Json)) (key : String) : List (String × Json) :=
  d.filter (fun e => !(e.1 == key))

/-- Byte-prefix test `strings.HasPrefix(key, keyPrefix)`. -/
def goHasPrefix (s pre : String) : Bool := pre.data.isPrefixOf s.data

/-- Iteration of `MemoryStore.List` (part_006 lines 274-283): collect the
decoded value of every entry whose key matches; decoding a stored payload
(well-formed JSON) into `any` cannot fail, so the error return of the loop
body is unreachable in the model. -/
def listLoop (pre : String) : List (String × Json) → List GoAny
  | [] => []
  | (k, d) :: rest =>
      if goHasPrefix k pre then goUnmarshalAny d :: listLoop pre rest
      else listLoop pre rest

/-- Result type of `MemoryStore.List`. -/
def ListResult := Except StoreErr (List GoAny)

namespace MemoryStore

/-- Model of `MemoryStore.Set` (part_006 lines 200-220); the pair returns the
call result together with the store state after the call. -/
def Set (s : Store) (key : String) (value : GoAny) : Except StoreErr Unit × Store :=
  if key = "" then (.error .emptyKey, s)
  else
    match marshal value with
    | none => (.error .marshalFail, s)
    | some d => (.ok (), ⟨setData s.data key d⟩)

/-- Model of `MemoryStore.Get` (part_006 lines 223-246). -/
def Get (s : Store) (key : String) : Except StoreErr GoAny :=
  if key = "" then .error .emptyKey
  else
    match lookupData s.data key with
    | none => .error .keyNotFound
    | some d => .ok (goUnmarshalAny d)

/-- Model of `MemoryStore.GetTyped` (part_006 lines 249-267); `dec` is the
`json.Unmarshal` of the payload into the caller-provided target shape, which
may fail on an incompatible payload. -/
def GetTyped {α : Type} (s : Store) (key : String) (dec : Json → Option α) :
    Except StoreErr α :=
  if key = "" then .error .emptyKey
  else
    match lookupData s.data key with
    | none => .error .keyNotFound
    | some d =>
      match dec d with
      | none => .error .unmarshalFail
      | some a => .ok a

/-- Model of `MemoryStore.List` (part_006 lines 270-289). -/
def List (s : Store) (pre : String) : ListResult := .ok (listLoop pre s.data)

/-- Model of `MemoryStore.Delete` (part_006 lines 307-325). -/
def Delete (s : Store) (key : String) : Except StoreErr Unit × Store :=
  if key = "" then (.error .emptyKey, s)
  else
    match lookupData s.data key with
    | none => (.error .keyNotFound, s)
    | some _ => (.ok (), ⟨eraseData s.data key⟩)

end MemoryStore

/-- Pagination constants (part_003 lines 26-30). -/
def DefaultLimit : Int := 20

/-- Minimum page size (part_003 line 28). -/
def MinLimit : Int := 1

/-- Maximum page size (part_003 line 29). -/
def MaxLimit : Int := 100

/-- Limit normalization of `NewPaginationParams` (part_003 lines 40-48): the
three clamping branches in source order. -/
def clampLimit (limit : Int) : Int :=
  let l1 := if limit ≤ 0 then DefaultLimit else limit
  let l2 := if l1 > MaxLimit then MaxLimit else l1
  if l2 < MinLimit then MinLimit else l2

/-- Model of `NewPaginationParams` (part_003 lines 39-54). -/
def NewPaginationParams (cursor : CursorStr) (limit : Int) : PaginationParams :=
  ⟨cursor, clampLimit limit⟩

/-- Model of `DecodeCursor` (part_003 lines 57-73): the empty string decodes
to no cursor, a well-formed token to its record, anything else to
`PaginationError`. -/
def DecodeCursor : CursorStr → Except AppError (Option Cursor)
  | .empty => .ok none
  | .enc c => .ok (some c)
  | .malformed t => .error (.paginationError (.malformed t))

/-- Model of `EncodeCursor` (part_003 lines 76-87); `json.Marshal` of a
`Cursor` record cannot fail, so the error return is dead. -/
def EncodeCursor : Option Cursor → CursorStr
  | none => .empty
  | some c => .enc c

/-- Model of `CreateNextCursor` (part_003 lines 127-138). -/
def CreateNextCursor (lastID : String) (limit : Int) : CursorStr :=
  if lastID = "" then .empty else EncodeCursor (some ⟨lastID, limit⟩)

/-- Model of `ValidatePaginationParams` (part_003 lines 112-124). -/
def ValidatePaginationParams (cursor : CursorStr) (limit : Int) :
    Except AppError Unit :=
  if limit < MinLimit ∨ limit > MaxLimit then .error .limitRangeError
  else if cursor = .empty then .ok ()
  else
    match DecodeCursor cursor with
    | .error e => .error e
    | .ok _ => .ok ()

/-- Stable insertion step for the sort of `ListPosts`. -/
def insertPost (p : Post) : List Post → List Post
  | [] => [p]
  | q :: rest =>
      if q.createdAt ≤ p.createdAt then p :: q :: rest else q :: insertPost p rest

/-- Model of `sort.Slice(posts, less)` with the source comparator
`posts[i].CreatedAt.After(posts[j].CreatedAt)` (post_service.go lines
139-141).  `sort.Slice` guarantees only a comparator-consistent reordering
and is not stable; it is modelled by a deterministic stable comparison sort
with the same comparator, so equal-`createdAt` posts surface in arrival
order (for the real code: map-iteration order, which is arbitrary). -/
def sortPosts (l : List Post) : List Post := l.foldr insertPost []

/-- Conversion loop of `ListPosts` (post_service.go lines 131-136): keep the
values whose dynamic type is `domain.Post`. -/
def convertPosts (values : List GoAny) : List Post :=
  values.foldl (fun acc v =>
    match asPost v with
    | some p => acc ++ [p]
    | none => acc) []

/-- Start-index resolution of `ListPosts` (post_service.go lines 144-159):
an empty cursor (or nil decode) starts at 0; a decodable cursor whose id is
found starts just after it; an absent cursor id falls through to start index
0 (the loop at lines 152-157 simply never assigns `startIndex`). -/
def resolveStart (posts : List Post) (cursor : CursorStr) : Except AppError Nat :=
  if cursor = .empty then .ok 0
  else
    match DecodeCursor cursor with
    | .error _ => .error (.paginationError cursor)
    | .ok none => .ok 0
    | .ok (some cObj) =>
      match posts.findIdx? (fun p => p.id == cObj.id) with
      | some i => .ok (i + 1)
      | none => .ok 0

/-- Pagination tail of `ListPosts` (post_service.go lines 138-181): sort the
view, resolve the start index from the cursor, slice one page, and encode the
next cursor. -/
def paginate (posts0 : List Post) (params : PaginationParams) :
    Except AppError PostList :=
  let posts := sortPosts posts0
  match resolveStart posts params.cursor with
  | .error e => .error e
  | .ok startIndex =>
    let l := params.limit.toNat
    let endIndex := min (startIndex + l) posts.length
    let pagePosts := (posts.drop startIndex).take (endIndex - startIndex)
    let nextCursor :=
      if endIndex < posts.length then
        CreateNextCursor (posts.getD (endIndex - 1) ⟨"", "", "", 0, 0⟩).id params.limit
      else .empty
    .ok ⟨pagePosts, nextCursor⟩

namespace PostService

/-- Model of `PostService.ListPosts` (post_service.go lines 114-182) over the
`MemoryStore` backend wired in `cmd/server/main.go`. -/
def ListPosts (s : Store) (cursor : CursorStr) (limit : Int) :
    Except AppError PostList :=
  let params := NewPaginationParams cursor limit
  match ValidatePaginationParams params.cursor params.limit with
  | .error e => .error (.validationError "pagination" e)
  | .ok _ =>
    match MemoryStore.List s "posts:" with
    | .error e => .error (.storageError e)
    | .ok values => paginate (convertPosts values) params

end PostService

/-- Sample post with id "a" (createdAt instant 5). -/
def postA : Post := ⟨"a", "title a", "content a", 5, 5⟩

/-- Sample post with id "b" and the same `createdAt` instant as `postA`. -/
def postB : Post := ⟨"b", "title b", "content b", 5, 5⟩

/-- Store reached from the empty store by storing `postA` under its post key. -/
def storeA : Store := (MemoryStore.Set ⟨[]⟩ "posts:a" (.postVal postA)).2

/-- Store reached by storing `postB` and then `postA` under their post keys. -/
def storeBA : Store :=
  (MemoryStore.Set (MemoryStore.Set ⟨[]⟩ "posts:b" (.postVal postB)).2
    "posts:a" (.postVal postA)).2

/-- Singleton store used to instantiate store lemmas. -/
def sampleStore : Store := ⟨[("posts:a", Json.null)]⟩

theorem lookup_setData_self (d : List (String × Json)) (k : String) (v : Json) :
    lookupData (setData d k v) k = some v := by
  induction d with
  | nil => simp [setData, lookupData]
  | cons e rest ih =>
    obtain ⟨a, b⟩ := e
    by_cases h : a = k
    · simp [setData, lookupData, h]
    · simp [setData, lookupData, h, ih]

theorem lookup_eraseData_self (d : List (String × Json)) (k : String) :
    lookupData (eraseData d k) k = none := by
  induction d with
  | nil => simp [eraseData, lookupData]
  | cons e rest ih =>
    obtain ⟨a, b⟩ := e
    by_cases h : a = k
    · simpa [eraseData, List.filter_cons, h] using ih
    · simpa [eraseData, List.filter_cons, h, lookupData] using ih

theorem goHasPrefix_empty (s : String) : goHasPrefix s "" = true := by
  show List.isPrefixOf "".data s.data = true
  have h : "".data = ([] : List Char) := rfl
  rw [h]
  cases s.data <;> rfl

theorem listLoop_closed (pre : String) (d : List (String × Json)) :
    listLoop pre d =
      (d.filter (fun e => goHasPrefix e.1 pre)).map (fun e => goUnmarshalAny e.2) := by
  induction d with
  | nil => rfl
  | cons e rest ih =>
    obtain ⟨a, b⟩ := e
    by_cases h : goHasPrefix a pre
    · simp [listLoop, List.filter_cons, h, ih]
    · simp [listLoop, List.filter_cons, h, ih]

theorem clampLimit_lower (l : Int) : MinLimit ≤ clampLimit l := by
  simp only [clampLimit, MinLimit, MaxLimit, DefaultLimit]
  split_ifs <;> omega

theorem clampLimit_upper (l : Int) : clampLimit l ≤ MaxLimit := by
  simp only [clampLimit, MinLimit, MaxLimit, DefaultLimit]
  split_ifs <;> omega

theorem validate_enc_ok (c : Cursor) (L : Int) (h1 : MinLimit ≤ L)
    (h2 : L ≤ MaxLimit) : ValidatePaginationParams (.enc c) L = .ok () := by
  simp only [ValidatePaginationParams, MinLimit, MaxLimit] at *
  rw [if_neg (by omega)]
  rw [if_neg (by simp)]
  simp [DecodeCursor]

theorem validate_empty_ok (L : Int) (h1 : MinLimit ≤ L) (h2 : L ≤ MaxLimit) :
    ValidatePaginationParams .empty L = .ok () := by
  simp only [ValidatePaginationParams, MinLimit, MaxLimit] at *
  rw [if_neg (by omega)]
  simp

theorem paginate_length (ps : List Post) (params : PaginationParams)
    (pl : PostList) (h : paginate ps params = .ok pl) :
    pl.posts.length ≤ params.limit.toNat := by
  revert h
  simp only [paginate]
  cases hr : resolveStart (sortPosts ps) params.cursor with
  | error e => intro h; exact absurd h (by simp)
  | ok i =>
    intro h
    injection h with h
    subst h
    have hmin : min (i + params.limit.toNat) (sortPosts ps).length
        ≤ i + params.limit.toNat := min_le_left _ _
    simp only [List.length_take]
    omega

theorem resolveStart_enc_id (ps : List Post) (c₁ c₂ : Cursor)
    (hid : c₁.id = c₂.id) :
    resolveStart ps (.enc c₁) = resolveStart ps (.enc c₂) := by
  simp only [resolveStart]
  rw [if_neg (by simp), if_neg (by simp)]
  simp only [DecodeCursor]
  rw [hid]

theorem paginate_enc_id (ps : List Post) (L : Int) (c₁ c₂ : Cursor)
    (hid : c₁.id = c₂.id) :
    paginate ps ⟨.enc c₁, L⟩ = paginate ps ⟨.enc c₂, L⟩ := by
  simp only [paginate]
  rw [resolveStart_enc_id (sortPosts ps) c₁ c₂ hid]

theorem listPosts_length (s : Store) (c : CursorStr) (l : Int) (pl : PostList)
    (h : PostService.ListPosts s c l = .ok pl) :
    pl.posts.length ≤ (clampLimit l).toNat := by
  simp only [PostService.ListPosts, NewPaginationParams, MemoryStore.List] at h
  cases hv : ValidatePaginationParams c (clampLimit l) with
  | error e => rw [hv] at h; simp at h
  | ok u => rw [hv] at h; exact paginate_length _ _ _ h

/-- C1: the claim demands that a cursor which decodes to an id absent from
the freshly recomputed view make `PostService.ListPosts` return
`PaginationError`.  The code instead answers without any error: on the real
composite (where the `domain.Post` type assertion leaves the view empty) the
stale cursor for the deleted id "b" yields an ok empty page, and the
pagination tail itself, run on the one-post view the conversion was meant to
produce, silently resumes at the start of the list and returns the first
page.  No `PaginationError` is produced on either reading. -/
theorem c1_stale_cursor_resumes_silently :
    PostService.ListPosts storeA (.enc ⟨"b", 2⟩) 2 = .ok ⟨[], .empty⟩ ∧
    paginate [postA] ⟨.enc ⟨"b", 2⟩, 2⟩ = .ok ⟨[postA], .empty⟩ :=
  ⟨rfl, rfl⟩

/-- C2: the claim says paging from the empty cursor until `nextCursor` is
absent returns exactly the N stored posts.  In the code
`MemoryStore.List` hands back generically decoded JSON values, so the
`value.(domain.Post)` type assertion in `ListPosts` never succeeds: with one
post stored under the "posts:" key space, the store reports the entry, yet
the very first page is already empty with no next cursor, so the union over
all pages has 0 of the 1 posts. -/
theorem c2_pagination_loses_all_posts :
    MemoryStore.List storeA "posts:" = .ok [.jsonVal (postJson postA)] ∧
    PostService.ListPosts storeA .empty 20 = .ok ⟨[], .empty⟩ :=
  ⟨rfl, rfl⟩

/-- C3: the claim says the view of `PostService.ListPosts` is ordered by
`createdAt` descending with ties broken by id ascending.  The sort of the
code compares only `CreatedAt` (post_service.go lines 139-141), so for the
two equal-`createdAt` posts `postA` (id "a") and `postB` (id "b") arriving in
order [postB, postA] the sorted view keeps the larger id first; and on the
real composite neither post even reaches the view (the type assertion drops
them all), so the smaller id cannot appear first there either. -/
theorem c3_no_id_tiebreak :
    postA.createdAt = postB.createdAt ∧ postA.id ≠ postB.id ∧
    sortPosts [postB, postA] = [postB, postA] ∧
    PostService.ListPosts storeBA .empty 2 = .ok ⟨[], .empty⟩ :=
  ⟨rfl, by decide, rfl, rfl⟩

/-- C4 counterexample: the claim says a requested limit of -5 is clamped to
an effective limit of 1; `NewPaginationParams` maps every non-positive limit
to the default 20 (the later clamp to the minimum is dead code), so the
effective limit at -5 is 20, not 1. -/
theorem c4_counterexample_neg_limit :
    (NewPaginationParams .empty (-5)).limit = 20 ∧ (20 : Int) ≠ 1 :=
  ⟨rfl, by decide⟩

/-- C4 amended: every requested limit strictly below 1 is normalized by
`NewPaginationParams` to the default effective limit 20, so pages contain at
most 20 items. -/
theorem c4_low_limit_gets_default (c : CursorStr) (l : Int) (h : l < 1) :
    (NewPaginationParams c l).limit = 20 ∧
    ∀ (s : Store) (pl : PostList),
      PostService.ListPosts s c l = .ok pl → pl.posts.length ≤ 20 := by
  have hcl : clampLimit l = 20 := by
    simp only [clampLimit, DefaultLimit, MaxLimit, MinLimit]
    split_ifs <;> omega
  refine ⟨by simp [NewPaginationParams, hcl], ?_⟩
  intro s pl hpl
  have := listPosts_length s c l pl hpl
  rw [hcl] at this
  exact this

/-- C4 witness: the amended clamp evaluated at the counterexample input -5
(page instantiated at the empty store). -/
theorem c4_low_limit_gets_default_witness :
    (NewPaginationParams .empty (-5)).limit = 20 ∧
    (PostList.mk [] .empty).posts.length ≤ 20 := by
  refine ⟨(c4_low_limit_gets_default .empty (-5) (by decide)).1, ?_⟩
  exact (c4_low_limit_gets_default .empty (-5) (by decide)).2 ⟨[]⟩
    ⟨[], .empty⟩ (by rfl)

/-- C5: `NewPaginationParams` maps a requested limit of 0 to the default
limit 20 and every limit above the maximum 100 to exactly 100. -/
theorem c5_zero_default_and_max_cap (c : CursorStr) (l : Int) (h : 100 < l) :
    (NewPaginationParams c 0).limit = 20 ∧
    (NewPaginationParams c l).limit = 100 := by
  constructor
  · rfl
  · show clampLimit l = 100
    simp only [clampLimit, DefaultLimit, MaxLimit, MinLimit]
    split_ifs <;> omega

/-- C5 witness: evaluation at limit 1000. -/
theorem c5_zero_default_and_max_cap_witness :
    (NewPaginationParams .empty 0).limit = 20 ∧
    (NewPaginationParams .empty 1000).limit = 100 :=
  c5_zero_default_and_max_cap .empty 1000 (by decide)

/-- C6: for a non-empty key and a serializable value, `MemoryStore.Set`
succeeds and a following `MemoryStore.Get` on the same key succeeds with
exactly the JSON round-trip image of the stored value (equality after
marshal and generic unmarshal, not byte identity). -/
theorem c6_set_get_roundtrip (s : Store) (k : String) (v : GoAny) (j : Json)
    (hk : k ≠ "") (hv : marshal v = some j) :
    (MemoryStore.Set s k v).1 = .ok () ∧
    MemoryStore.Get (MemoryStore.Set s k v).2 k = .ok (goUnmarshalAny j) ∧
    roundTripImage v = some (goUnmarshalAny j) := by
  refine ⟨?_, ?_, ?_⟩
  · simp [MemoryStore.Set, hk, hv]
  · simp [MemoryStore.Set, MemoryStore.Get, hk, hv, lookup_setData_self]
  · simp [roundTripImage, hv]

/-- C6 witness: round trip of the string value "x" under key "k" in the
empty store. -/
theorem c6_set_get_roundtrip_witness :
    (MemoryStore.Set ⟨[]⟩ "k" (.strVal "x")).1 = .ok () ∧
    MemoryStore.Get (MemoryStore.Set ⟨[]⟩ "k" (.strVal "x")).2 "k" =
      .ok (goUnmarshalAny (.str "x")) ∧
    roundTripImage (.strVal "x") = some (goUnmarshalAny (.str "x")) :=
  c6_set_get_roundtrip ⟨[]⟩ "k" (.strVal "x") (.str "x") (by decide) rfl

/-- C7 counterexample: the empty key was never set (Set rejects it), yet
`Get`, `GetTyped` and `Delete` on it fail with the generic
"key cannot be empty" error, not with the distinguished
`domain.ErrKeyNotFound`, refuting the claim for that key. -/
theorem c7_counterexample_empty_key :
    MemoryStore.Get ⟨[]⟩ "" = .error .emptyKey ∧
    MemoryStore.GetTyped ⟨[]⟩ "" (fun j => some j) = .error .emptyKey ∧
    (MemoryStore.Delete ⟨[]⟩ "").1 = .error .emptyKey ∧
    StoreErr.emptyKey ≠ StoreErr.keyNotFound :=
  ⟨rfl, rfl, rfl, by decide⟩

/-- C7 amended: for every NON-EMPTY key absent from the store (never set),
and for every non-empty key just removed by a successful `Delete`, each of
`Get`, `GetTyped` and `Delete` fails with the distinguished
`StoreErr.keyNotFound`. -/
theorem c7_absent_key_not_found {α : Type} (s : Store) (k : String)
    (dec : Json → Option α) (hk : k ≠ "") :
    (lookupData s.data k = none →
       MemoryStore.Get s k = .error .keyNotFound ∧
       MemoryStore.GetTyped s k dec = .error .keyNotFound ∧
       (MemoryStore.Delete s k).1 = .error .keyNotFound) ∧
    (∀ s₂, MemoryStore.Delete s k = (.ok (), s₂) →
       MemoryStore.Get s₂ k = .error .keyNotFound ∧
       MemoryStore.GetTyped s₂ k dec = .error .keyNotFound ∧
       (MemoryStore.Delete s₂ k).1 = .error .keyNotFound) := by
  constructor
  · intro hn
    refine ⟨?_, ?_, ?_⟩
    · simp [MemoryStore.Get, hk, hn]
    · simp [MemoryStore.GetTyped, hk, hn]
    · simp [MemoryStore.Delete, hk, hn]
  · intro s₂ hdel
    have hs₂ : s₂.data = eraseData s.data k := by
      simp only [MemoryStore.Delete, if_neg hk] at hdel
      cases hl : lookupData s.data k with
      | none => rw [hl] at hdel; simp at hdel
      | some d =>
        rw [hl] at hdel
        have := congrArg Prod.snd hdel
        simp at this
        rw [← this]
    have hn : lookupData s₂.data k = none := by
      rw [hs₂]; exact lookup_eraseData_self s.data k
    refine ⟨?_, ?_, ?_⟩
    · simp [MemoryStore.Get, hk, hn]
    · simp [MemoryStore.GetTyped, hk, hn]
    · simp [MemoryStore.Delete, hk, hn]

/-- C7 witness: key "b" absent from a one-entry store fails with
`keyNotFound` on all three operations. -/
theorem c7_absent_key_not_found_witness :
    MemoryStore.Get ⟨[("a", Json.str "x")]⟩ "b" = .error .keyNotFound ∧
    MemoryStore.GetTyped ⟨[("a", Json.str "x")]⟩ "b" (fun j => some j) =
      .error .keyNotFound ∧
    (MemoryStore.Delete ⟨[("a", Json.str "x")]⟩ "b").1 = .error .keyNotFound :=
  (c7_absent_key_not_found ⟨[("a", Json.str "x")]⟩ "b" (fun j => some j)
    (by decide)).1 rfl

/-- C8: `MemoryStore.List` always succeeds, returning one decoded value per
entry whose key extends the requested key space (exactly the matching
entries, in store order, so nothing is missing, added or duplicated); the
empty string matches every entry; and permuting the backing entries (any
insertion order) permutes the result, nothing more. -/
theorem c8_list_exactly_matching (s t : Store) (pre : String) :
    MemoryStore.List s pre =
      .ok ((s.data.filter (fun e => goHasPrefix e.1 pre)).map
            (fun e => goUnmarshalAny e.2)) ∧
    MemoryStore.List s "" = .ok (s.data.map (fun e => goUnmarshalAny e.2)) ∧
    (s.data.Perm t.data →
       ∃ us vs, MemoryStore.List s pre = .ok us ∧
         MemoryStore.List t pre = .ok vs ∧ us.Perm vs) := by
  refine ⟨?_, ?_, ?_⟩
  · simp [MemoryStore.List, listLoop_closed]
  · have hall : s.data.filter (fun e => goHasPrefix e.1 "") = s.data :=
      List.filter_eq_self.mpr (fun a _ => goHasPrefix_empty a.1)
    simp [MemoryStore.List, listLoop_closed, hall]
  · intro hperm
    refine ⟨(s.data.filter (fun e => goHasPrefix e.1 pre)).map
              (fun e => goUnmarshalAny e.2),
            (t.data.filter (fun e => goHasPrefix e.1 pre)).map
              (fun e => goUnmarshalAny e.2),
            by simp [MemoryStore.List, listLoop_closed],
            by simp [MemoryStore.List, listLoop_closed], ?_⟩
    exact (hperm.filter _).map _

/-- C8 witness: instantiation at a singleton store (with the identity
permutation of its entries). -/
theorem c8_list_exactly_matching_witness :
    MemoryStore.List sampleStore "posts:" =
      .ok ((sampleStore.data.filter (fun e => goHasPrefix e.1 "posts:")).map
            (fun e => goUnmarshalAny e.2)) ∧
    MemoryStore.List sampleStore "" =
      .ok (sampleStore.data.map (fun e => goUnmarshalAny e.2)) ∧
    (∃ us vs, MemoryStore.List sampleStore "posts:" = .ok us ∧
       MemoryStore.List sampleStore "posts:" = .ok vs ∧ us.Perm vs) :=
  ⟨(c8_list_exactly_matching sampleStore sampleStore "posts:").1,
   (c8_list_exactly_matching sampleStore sampleStore "posts:").2.1,
   (c8_list_exactly_matching sampleStore sampleStore "posts:").2.2
     (List.Perm.refl _)⟩

/-- C9: `MemoryStore.Set` with the empty key fails with the invalid-key
error, and every failing `Set` (empty key or marshal failure) leaves the
store state exactly as it was. -/
theorem c9_failed_set_leaves_store (s : Store) (v w : GoAny) (k : String)
    (e : StoreErr) :
    MemoryStore.Set s "" v = (.error .emptyKey, s) ∧
    ((MemoryStore.Set s k w).1 = .error e → (MemoryStore.Set s k w).2 = s) := by
  constructor
  · simp [MemoryStore.Set]
  · intro herr
    by_cases hk : k = ""
    · simp [MemoryStore.Set, hk]
    · cases hm : marshal w with
      | none => simp [MemoryStore.Set, hk, hm]
      | some d => simp [MemoryStore.Set, hk, hm] at herr

/-- C9 witness: the empty-key rejection and state preservation for the
failing marshal of a channel value under key "x" in the empty store. -/
theorem c9_failed_set_leaves_store_witness :
    MemoryStore.Set ⟨[]⟩ "" GoAny.chanVal = (.error .emptyKey, ⟨[]⟩) ∧
    (MemoryStore.Set ⟨[]⟩ "x" GoAny.chanVal).2 = ⟨[]⟩ :=
  ⟨(c9_failed_set_leaves_store ⟨[]⟩ GoAny.chanVal GoAny.chanVal "x"
      StoreErr.marshalFail).1,
   (c9_failed_set_leaves_store ⟨[]⟩ GoAny.chanVal GoAny.chanVal "x"
      StoreErr.marshalFail).2 rfl⟩

/-- C10: for every store, limit argument and pair of cursors decoding to the
same id but (possibly) different encoded limit fields,
`PostService.ListPosts` returns identical results, and the page size is
bounded by the clamp of the limit argument alone: the limit carried inside
the cursor has no effect on the output. -/
theorem c10_cursor_limit_field_no_effect (s : Store) (limit : Int)
    (c₁ c₂ : Cursor) (hid : c₁.id = c₂.id) :
    PostService.ListPosts s (.enc c₁) limit =
      PostService.ListPosts s (.enc c₂) limit ∧
    ∀ pl, PostService.ListPosts s (.enc c₁) limit = .ok pl →
      pl.posts.length ≤ (NewPaginationParams (.enc c₁) limit).limit.toNat := by
  constructor
  · have hv₁ := validate_enc_ok c₁ (clampLimit limit)
      (clampLimit_lower limit) (clampLimit_upper limit)
    have hv₂ := validate_enc_ok c₂ (clampLimit limit)
      (clampLimit_lower limit) (clampLimit_upper limit)
    simp only [PostService.ListPosts, NewPaginationParams, hv₁, hv₂,
      MemoryStore.List]
    exact paginate_enc_id _ _ _ _ hid
  · intro pl hpl
    have := listPosts_length s (.enc c₁) limit pl hpl
    simpa [NewPaginationParams] using this

/-- C10 witness: the cursors encoding ("x", 1) and ("x", 99) give the same
answer on the empty store at limit 5 (with the page bound at that call). -/
theorem c10_cursor_limit_field_no_effect_witness :
    PostService.ListPosts ⟨[]⟩ (.enc ⟨"x", 1⟩) 5 =
      PostService.ListPosts ⟨[]⟩ (.enc ⟨"x", 99⟩) 5 ∧
    (PostList.mk [] .empty).posts.length ≤
      (NewPaginationParams (.enc ⟨"x", 1⟩) 5).limit.toNat :=
  ⟨(c10_cursor_limit_field_no_effect ⟨[]⟩ 5 ⟨"x", 1⟩ ⟨"x", 99⟩ rfl).1,
   (c10_cursor_limit_field_no_effect ⟨[]⟩ 5 ⟨"x", 1⟩ ⟨"x", 99⟩ rfl).2
     ⟨[], .empty⟩ rfl⟩
